import Mathlib

/-!
Verification of the stock-analysis core against its specification.

The development shallowly embeds the Python source of the repository:
pandas/numpy float cells are modelled as `Option ℚ` (with `none` for NaN)
where only NaN propagation matters, and as the four-constructor type `PF`
(nan, plus/minus infinity, finite rational) where IEEE infinities can
arise.  DataFrames become lists of rationals or of row structures.
Each definition is translated from the named source function.
-/

namespace StockAnalysis

/-! ## Risk scorer (src/src/risk/assessment.py) -/

/-- Risk levels returned by `RiskAssessment._determine_risk_level`
(`低风险` = LOW, `中风险` = MEDIUM, `高风险` = HIGH). -/
inductive RiskLevel where
  | LOW
  | MEDIUM
  | HIGH
  deriving DecidableEq, Repr

/-- Embeds `RiskAssessment._determine_risk_level` (assessment.py lines 419-426):
score below 30 is LOW, below 60 is MEDIUM, otherwise HIGH. -/
def determineRiskLevel (riskScore : ℚ) : RiskLevel :=
  if riskScore < 30 then .LOW
  else if riskScore < 60 then .MEDIUM
  else .HIGH

/-- Embeds the aggregation step of `RiskAssessment.assess_stock_risk`
(assessment.py lines 84-89): the overall score is `np.mean` of the five
factor scores (volatility, volume, technical, trend, liquidity), and the
level is derived from that mean. -/
def assessOverall (volatility volume technical trend liquidity : ℚ) :
    ℚ × RiskLevel :=
  let score := (volatility + volume + technical + trend + liquidity) / 5
  (score, determineRiskLevel score)

/-! ## Turtle strategy (src/src/strategy/turtle_strategy.py)

The strategy params used by the claims: system 1 entry period 20 and exit
period 10, system 2 entry 55 and exit 20, total capital 100000, per-trade
risk 2 percent, single-position ceiling 5 percent. -/

/-- Embeds `TurtleTradingStrategy._calculate_position_size`
(turtle_strategy.py lines 228-250).  `closeLast` is
`price_data['close'].iloc[-1]`; `atr` is the ATR argument.  With
`total_capital = 100000` and `position_risk_pct = 0.02` the computed size is
`(100000 * 0.02 / atr) / 100000 = 0.02 / atr`, capped at
`unit_limit_single = 0.05`. -/
def calculatePositionSize (closeLast atr : ℚ) : ℚ :=
  if atr ≤ 0 ∨ closeLast ≤ 0 then 5/100
  else
    let riskAmount : ℚ := 100000 * (2/100)
    let positionValue := riskAmount / atr
    let positionSize := positionValue / 100000
    min positionSize (5/100)

/-! ### A small IEEE-style float model

`_calculate_breakout_strength` divides by a caller-supplied breakout level,
so 0/0 (NaN) and x/0 (infinity) can arise and then flow through the Python
builtins `min` and `max`, which are not NaN-symmetric.  `PF` models exactly
the values reachable there: NaN, the two infinities, and finite rationals. -/

inductive PF where
  | nan
  | inf
  | ninf
  | fin (q : ℚ)
  deriving DecidableEq, Repr

namespace PF

/-- IEEE comparison: every comparison against NaN is false. -/
def lt : PF → PF → Bool
  | fin a, fin b => decide (a < b)
  | ninf, fin _ => true
  | ninf, inf => true
  | fin _, inf => true
  | _, _ => false

/-- Python `min(a, b)`: returns `b` exactly when `b < a`, hence a leading
NaN is kept and a trailing NaN is dropped. -/
def pymin (a b : PF) : PF := if lt b a then b else a

/-- Python `max(a, b)`: returns `b` exactly when `b > a`. -/
def pymax (a b : PF) : PF := if lt a b then b else a

/-- IEEE division of two finite rationals: 0/0 is NaN and x/0 for x ≠ 0 is
a signed infinity. -/
def divQ (a b : ℚ) : PF :=
  if b = 0 then
    if a = 0 then nan else if a > 0 then inf else ninf
  else fin (a / b)

/-- Scaling by a positive rational constant keeps NaN and infinities. -/
def scale (c : ℚ) : PF → PF
  | nan => nan
  | inf => inf
  | ninf => ninf
  | fin a => fin (c * a)

/-- Adding a finite rational constant keeps NaN and infinities. -/
def addQ : PF → ℚ → PF
  | nan, _ => nan
  | inf, _ => inf
  | ninf, _ => ninf
  | fin a, c => fin (a + c)

end PF

/-- One OHLCV bar of the price DataFrame handed to the turtle strategy. -/
structure Bar where
  high : ℚ
  low : ℚ
  close : ℚ
  volume : ℚ
  deriving DecidableEq, Repr

/-- Maximum of a price column, as pandas `.max()` on a nonempty slice; the
callers below only apply it to nonempty slices. -/
def seriesMax : List ℚ → ℚ
  | [] => 0
  | x :: xs => xs.foldl max x

/-- Minimum of a price column, as pandas `.min()` on a nonempty slice. -/
def seriesMin : List ℚ → ℚ
  | [] => 0
  | x :: xs => xs.foldl min x

/-- Arithmetic mean of a nonempty list, as pandas `.mean()`. -/
def seriesMean (xs : List ℚ) : ℚ := xs.sum / xs.length

/-- Pandas `.tail(n)`: the last `n` rows (all rows when fewer). -/
def seriesTail (n : ℕ) (xs : List ℚ) : List ℚ := xs.drop (xs.length - n)

/-- Embeds `TurtleTradingStrategy._calculate_breakout_strength`
(turtle_strategy.py lines 165-189).  The bars carry a volume column, so the
`current_volume`/`avg_volume` branches for a missing column do not arise;
an empty DataFrame raises IndexError on `iloc[-1]`, caught by the handler
that returns 0.5. -/
def calculateBreakoutStrength (bars : List Bar) (breakoutLevel : ℚ)
    (isUpward : Bool) : PF :=
  match bars.getLast? with
  | none => .fin (1/2)
  | some lastBar =>
    let currentPrice := lastBar.close
    let currentVolume := lastBar.volume
    let breakoutPct : PF :=
      if isUpward then PF.divQ (currentPrice - breakoutLevel) breakoutLevel
      else PF.divQ (breakoutLevel - currentPrice) breakoutLevel
    let avgVolume := seriesMean (seriesTail 20 (bars.map Bar.volume))
    let volumeRatio : ℚ := if avgVolume > 0 then currentVolume / avgVolume else 1
    let baseConfidence := PF.pymin (PF.scale 10 breakoutPct) (.fin (1/2))
    let volumeBoost : ℚ := min ((volumeRatio - 1) * (1/10)) (3/10)
    let confidence := PF.pymin (PF.addQ baseConfidence (volumeBoost + 3/10)) (.fin (9/10))
    PF.pymax confidence (.fin (1/10))

/-- Entry signal of one turtle system. -/
inductive EntrySig where
  | NONE
  | BUY
  | SELL
  deriving DecidableEq, Repr

/-- Exit signal of one turtle system. -/
inductive ExitSig where
  | NONE
  | EXIT_LONG
  | EXIT_SHORT
  deriving DecidableEq, Repr

/-- Result dictionary of `TurtleTradingStrategy._analyze_system`. -/
structure SystemResult where
  entrySignal : EntrySig := .NONE
  exitSignal : ExitSig := .NONE
  entryPrice : Option ℚ := none
  exitPrice : Option ℚ := none
  breakoutHigh : Option ℚ := none
  breakoutLow : Option ℚ := none
  confidence : PF := .fin 0
  deriving Repr

/-- Embeds `TurtleTradingStrategy._analyze_system` (turtle_strategy.py
lines 99-163) for given entry and exit lookbacks.  The slice
`iloc[-(p+1):-1]` is the trailing `p` bars excluding the final bar. -/
def analyzeSystem (entryPeriod exitPeriod : ℕ) (bars : List Bar) :
    SystemResult :=
  if bars.length < entryPeriod + 1 then {} else
  let _currentPrice := (bars.getLast?.map Bar.close).getD 0
  let currentHigh := (bars.getLast?.map Bar.high).getD 0
  let currentLow := (bars.getLast?.map Bar.low).getD 0
  let trailing (p : ℕ) (f : Bar → ℚ) : List ℚ :=
    ((bars.map f).drop (bars.length - (p + 1))).dropLast
  let entryHigh := seriesMax (trailing entryPeriod Bar.high)
  let entryLow := seriesMin (trailing entryPeriod Bar.low)
  let exitHigh := if bars.length ≥ exitPeriod + 1 then
      seriesMax (trailing exitPeriod Bar.high) else entryHigh
  let exitLow := if bars.length ≥ exitPeriod + 1 then
      seriesMin (trailing exitPeriod Bar.low) else entryLow
  let base : SystemResult :=
    { breakoutHigh := some entryHigh, breakoutLow := some entryLow }
  let withEntry : SystemResult :=
    if currentHigh > entryHigh then
      { base with
          entrySignal := .BUY
          entryPrice := some entryHigh
          confidence := calculateBreakoutStrength bars entryHigh true }
    else if currentLow < entryLow then
      { base with
          entrySignal := .SELL
          entryPrice := some entryLow
          confidence := calculateBreakoutStrength bars entryLow false }
    else base
  if currentLow < exitLow then
    { withEntry with exitSignal := .EXIT_LONG, exitPrice := some exitLow }
  else if currentHigh > exitHigh then
    { withEntry with exitSignal := .EXIT_SHORT, exitPrice := some exitHigh }
  else withEntry

/-- Combined action returned by `TurtleTradingStrategy._combine_signals`. -/
inductive Action where
  | BUY
  | SELL
  | EXIT
  | HOLD
  deriving DecidableEq, Repr

/-- The string an entry signal contributes as a combined action. -/
def EntrySig.action : EntrySig → Action
  | .NONE => .HOLD
  | .BUY => .BUY
  | .SELL => .SELL

/-- Embeds `TurtleTradingStrategy._combine_signals` (turtle_strategy.py
lines 191-203): system 2 entry first, then system 1 entry gated on
confidence above 0.6, then either exit, else HOLD.  The Python comparison
`system1['confidence'] > 0.6` is false when the confidence is NaN. -/
def combineSignals (system1 system2 : SystemResult) : Action :=
  if system2.entrySignal ≠ .NONE then system2.entrySignal.action
  else if system1.entrySignal ≠ .NONE ∧ PF.lt (.fin (6/10)) system1.confidence then
    system1.entrySignal.action
  else if system2.exitSignal ≠ .NONE then .EXIT
  else if system1.exitSignal ≠ .NONE then .EXIT
  else .HOLD

/-! ## Retail strategy combiner (src/src/strategy/retail_strategy.py) -/

/-- The three-key dict produced by `RetailStrategy._analyze_traditional_signals`. -/
structure TraditionalSignals where
  trend : ℚ
  technical : ℚ
  volume : ℚ
  deriving DecidableEq, Repr

/-- Recommendation strings of `TurtleTradingStrategy.get_turtle_recommendation`. -/
inductive TurtleRec where
  | BUY
  | SELL
  | EXIT
  | HOLD
  | NO_ACTION
  deriving DecidableEq, Repr

/-- The fields of the turtle recommendation read by the retail combiner. -/
structure TurtleAdvice where
  recommendation : TurtleRec
  confidence : ℚ
  deriving DecidableEq, Repr

/-- Turtle score derivation inside `RetailStrategy._make_combined_decision`
(retail_strategy.py lines 141-157): BUY maps to the confidence, SELL to its
negation, EXIT to -0.8, anything else (HOLD, NO_ACTION, no advice) to 0. -/
def turtleScoreOf : Option TurtleAdvice → ℚ
  | none => 0
  | some t =>
    if t.recommendation = .NO_ACTION then 0
    else match t.recommendation with
      | .BUY => t.confidence
      | .SELL => -t.confidence
      | .EXIT => -(8/10)
      | _ => 0

/-- Decision dictionary returned by `RetailStrategy._make_combined_decision`. -/
structure CombinedDecision where
  action : Action
  confidence : ℚ
  traditionalScore : ℚ
  turtleScore : ℚ
  totalScore : ℚ
  deriving DecidableEq, Repr

/-- Embeds `RetailStrategy._make_combined_decision` (retail_strategy.py
lines 134-206).  `turtleWeight` is `self.params['turtle_weight']`
(default 0.6); the traditional score is the sum of the three signal values. -/
def makeCombinedDecision (turtleWeight : ℚ) (trad : TraditionalSignals)
    (turtle : Option TurtleAdvice) : CombinedDecision :=
  let traditionalScore := trad.trend + trad.technical + trad.volume
  let traditionalWeight := 1 - turtleWeight
  let turtleScore := turtleScoreOf turtle
  let totalScore := traditionalScore * traditionalWeight + turtleScore * turtleWeight
  if totalScore > 3/10 then
    ⟨.BUY, min (9/10) (1/2 + |totalScore|), traditionalScore, turtleScore, totalScore⟩
  else if totalScore < -(3/10) then
    ⟨.SELL, min (9/10) (1/2 + |totalScore|), traditionalScore, turtleScore, totalScore⟩
  else
    ⟨.HOLD, 1/2, traditionalScore, turtleScore, totalScore⟩

/-! ## Theorems for the strategy and risk claims -/

lemma riskLevel_low_iff (s : ℚ) : determineRiskLevel s = .LOW ↔ s < 30 := by
  unfold determineRiskLevel
  split_ifs with h1 h2
  · exact ⟨fun _ => h1, fun _ => rfl⟩
  · exact ⟨fun h => absurd h (by decide), fun h => absurd h h1⟩
  · exact ⟨fun h => absurd h (by decide), fun h => absurd h h1⟩

lemma riskLevel_medium_iff (s : ℚ) :
    determineRiskLevel s = .MEDIUM ↔ 30 ≤ s ∧ s < 60 := by
  unfold determineRiskLevel
  split_ifs with h1 h2
  · exact ⟨fun h => absurd h (by decide), fun ⟨ha, _⟩ => absurd ha (by linarith)⟩
  · exact ⟨fun _ => ⟨by linarith, h2⟩, fun _ => rfl⟩
  · exact ⟨fun h => absurd h (by decide), fun ⟨_, hb⟩ => absurd hb h2⟩

lemma riskLevel_high_iff (s : ℚ) : determineRiskLevel s = .HIGH ↔ 60 ≤ s := by
  unfold determineRiskLevel
  split_ifs with h1 h2
  · exact ⟨fun h => absurd h (by decide), fun h => absurd h1 (by linarith)⟩
  · exact ⟨fun h => absurd h (by decide), fun h => absurd h2 (by linarith)⟩
  · exact ⟨fun _ => by linarith, fun _ => rfl⟩

/-- C9: the overall risk score is the unweighted mean of the five factor
scores, and the risk level is LOW exactly below 30, MEDIUM exactly in
[30, 60), HIGH otherwise; in particular 29.9 is LOW, 30.0 and 59.9 are
MEDIUM, and 60.0 is HIGH. -/
theorem risk_score_mean_and_buckets (v u t r l : ℚ) :
    (assessOverall v u t r l).1 = (v + u + t + r + l) / 5 ∧
    (assessOverall v u t r l).2 = determineRiskLevel ((v + u + t + r + l) / 5) ∧
    (∀ s : ℚ, (determineRiskLevel s = .LOW ↔ s < 30) ∧
      (determineRiskLevel s = .MEDIUM ↔ 30 ≤ s ∧ s < 60) ∧
      (determineRiskLevel s = .HIGH ↔ 60 ≤ s)) ∧
    determineRiskLevel (299/10) = .LOW ∧
    determineRiskLevel 30 = .MEDIUM ∧
    determineRiskLevel (599/10) = .MEDIUM ∧
    determineRiskLevel 60 = .HIGH := by
  refine ⟨rfl, rfl,
    fun s => ⟨riskLevel_low_iff s, riskLevel_medium_iff s, riskLevel_high_iff s⟩,
    ?_, ?_, ?_, ?_⟩ <;> norm_num [determineRiskLevel]

/-- Witness for C9 at the factor scores 20, 30, 40, 50, 60: the overall
score is their mean 40 and the level is MEDIUM. -/
theorem risk_score_mean_witness :
    (assessOverall 20 30 40 50 60).1 = (20 + 30 + 40 + 50 + 60) / 5 ∧
    (assessOverall 20 30 40 50 60).2 = .MEDIUM := by
  obtain ⟨h1, h2, hbuckets, -⟩ := risk_score_mean_and_buckets 20 30 40 50 60
  refine ⟨h1, ?_⟩
  rw [h2]
  exact ((hbuckets _).2.1).2 (by norm_num)

/-- C10: the turtle position size never divides by zero and always lies in
(0, 0.05]; for nonpositive ATR or price it is the 0.05 default, otherwise
min(0.02/ATR, 0.05). -/
theorem position_size_total_and_bounded (closeLast atr : ℚ) :
    ((atr ≤ 0 ∨ closeLast ≤ 0) → calculatePositionSize closeLast atr = 5/100) ∧
    (0 < atr → 0 < closeLast →
      calculatePositionSize closeLast atr = min ((2/100) / atr) (5/100)) ∧
    0 < calculatePositionSize closeLast atr ∧
    calculatePositionSize closeLast atr ≤ 5/100 := by
  unfold calculatePositionSize
  split_ifs with h
  · exact ⟨fun _ => rfl, fun ha hc => absurd h (by push_neg; exact ⟨ha, hc⟩),
      by norm_num, le_refl _⟩
  · push_neg at h
    obtain ⟨ha, hc⟩ := h
    refine ⟨fun hcon => ?_, fun _ _ => ?_, ?_, min_le_right _ _⟩
    · rcases hcon with h1 | h1 <;> linarith
    · show min (100000 * (2/100) / atr / 100000) (5/100) = min ((2/100) / atr) (5/100)
      congr 1
      field_simp
      ring
    · refine lt_min ?_ (by norm_num)
      positivity

/-- Witness for C10 at ATR = 0.01 and price 10: the size is
min(2, 0.05) = 0.05. -/
theorem position_size_witness :
    calculatePositionSize 10 (1/100) = min ((2/100) / (1/100)) (5/100) ∧
    0 < calculatePositionSize 10 (1/100) := by
  obtain ⟨-, h2, h3, -⟩ := position_size_total_and_bounded 10 (1/100)
  exact ⟨h2 (by norm_num) (by norm_num), h3⟩

/-- C7: the combined turtle signal honors the system 2 entry first, then the
system 1 entry gated on confidence strictly above 0.6, then an exit from
either system, else HOLD. -/
theorem combine_signals_spec (s1 s2 : SystemResult) :
    (s2.entrySignal ≠ .NONE → combineSignals s1 s2 = s2.entrySignal.action) ∧
    (s2.entrySignal = .NONE → s1.entrySignal ≠ .NONE →
      PF.lt (.fin (6/10)) s1.confidence = true →
      combineSignals s1 s2 = s1.entrySignal.action) ∧
    (s2.entrySignal = .NONE →
      (s1.entrySignal = .NONE ∨ PF.lt (.fin (6/10)) s1.confidence = false) →
      s1.exitSignal ≠ .NONE ∨ s2.exitSignal ≠ .NONE →
      combineSignals s1 s2 = .EXIT) ∧
    (s2.entrySignal = .NONE →
      (s1.entrySignal = .NONE ∨ PF.lt (.fin (6/10)) s1.confidence = false) →
      s1.exitSignal = .NONE → s2.exitSignal = .NONE →
      combineSignals s1 s2 = .HOLD) := by
  unfold combineSignals
  refine ⟨fun h2 => ?_, fun h2 h1 hc => ?_, fun h2 hng hex => ?_, fun h2 hng hx1 hx2 => ?_⟩
  · simp [h2]
  · simp [h2, h1, hc]
  · rcases hng with hn | hn <;> rcases hex with hx | hx <;> simp [h2, hn, hx]
  · rcases hng with hn | hn <;> simp [h2, hn, hx1, hx2]

/-- Witness for C7: with a system 2 BUY entry the combined action is BUY. -/
theorem combine_signals_witness :
    combineSignals {} { entrySignal := .BUY } = Action.BUY := by
  have h := (combine_signals_spec {} { entrySignal := .BUY }).1
  simpa using h (by simp)

lemma mcd_traditionalScore (w : ℚ) (trad : TraditionalSignals)
    (turtle : Option TurtleAdvice) :
    (makeCombinedDecision w trad turtle).traditionalScore =
      trad.trend + trad.technical + trad.volume := by
  simp only [makeCombinedDecision]
  split_ifs <;> rfl

lemma mcd_turtleScore (w : ℚ) (trad : TraditionalSignals)
    (turtle : Option TurtleAdvice) :
    (makeCombinedDecision w trad turtle).turtleScore = turtleScoreOf turtle := by
  simp only [makeCombinedDecision]
  split_ifs <;> rfl

lemma mcd_totalScore (w : ℚ) (trad : TraditionalSignals)
    (turtle : Option TurtleAdvice) :
    (makeCombinedDecision w trad turtle).totalScore =
      (trad.trend + trad.technical + trad.volume) * (1 - w) +
        turtleScoreOf turtle * w := by
  simp only [makeCombinedDecision]
  split_ifs <;> rfl

lemma mcd_action_buy (w : ℚ) (trad : TraditionalSignals)
    (turtle : Option TurtleAdvice) :
    (makeCombinedDecision w trad turtle).action = .BUY ↔
      3/10 < (makeCombinedDecision w trad turtle).totalScore := by
  simp only [makeCombinedDecision]
  split_ifs with hb hs
  · exact ⟨fun _ => hb, fun _ => rfl⟩
  · exact ⟨fun h => absurd h (by decide), fun h => absurd h hb⟩
  · exact ⟨fun h => absurd h (by decide), fun h => absurd h hb⟩

lemma mcd_action_sell (w : ℚ) (trad : TraditionalSignals)
    (turtle : Option TurtleAdvice) :
    (makeCombinedDecision w trad turtle).action = .SELL ↔
      (makeCombinedDecision w trad turtle).totalScore < -(3/10) := by
  simp only [makeCombinedDecision]
  split_ifs with hb hs
  · exact ⟨fun h => absurd h (by decide), fun h => by simp at hb; linarith⟩
  · exact ⟨fun _ => hs, fun _ => rfl⟩
  · exact ⟨fun h => absurd h (by decide), fun h => absurd h hs⟩

lemma mcd_action_hold (w : ℚ) (trad : TraditionalSignals)
    (turtle : Option TurtleAdvice) :
    (makeCombinedDecision w trad turtle).action = .HOLD ↔
      -(3/10) ≤ (makeCombinedDecision w trad turtle).totalScore ∧
        (makeCombinedDecision w trad turtle).totalScore ≤ 3/10 := by
  simp only [makeCombinedDecision]
  split_ifs with hb hs
  · exact ⟨fun h => absurd h (by decide), fun ⟨_, h2⟩ => absurd hb (by simp; linarith)⟩
  · exact ⟨fun h => absurd h (by decide), fun ⟨h1, _⟩ => absurd h1 (by simp; linarith)⟩
  · refine ⟨fun _ => ⟨by linarith [not_lt.mp hs], by linarith [not_lt.mp hb]⟩, fun _ => rfl⟩

lemma mcd_confidence (w : ℚ) (trad : TraditionalSignals)
    (turtle : Option TurtleAdvice) :
    ((makeCombinedDecision w trad turtle).action ≠ .HOLD →
      (makeCombinedDecision w trad turtle).confidence =
        min (9/10) (1/2 + |(makeCombinedDecision w trad turtle).totalScore|)) ∧
    ((makeCombinedDecision w trad turtle).action = .HOLD →
      (makeCombinedDecision w trad turtle).confidence = 1/2) := by
  simp only [makeCombinedDecision]
  split_ifs
  · exact ⟨fun _ => rfl, fun h => absurd h (by decide)⟩
  · exact ⟨fun _ => rfl, fun h => absurd h (by decide)⟩
  · exact ⟨fun h => absurd rfl h, fun _ => rfl⟩

/-- C8: the retail combined score is traditional*(1-w) + turtle*w, the
action thresholds are strict at 0.3 and -0.3, the confidence is
min(0.9, 0.5+|score|) for BUY/SELL and 0.5 for HOLD, and the two spec
examples evaluate as stated. -/
theorem combined_decision_spec (w : ℚ) (trad : TraditionalSignals)
    (turtle : Option TurtleAdvice) :
    (makeCombinedDecision w trad turtle).traditionalScore =
      trad.trend + trad.technical + trad.volume ∧
    (makeCombinedDecision w trad turtle).turtleScore = turtleScoreOf turtle ∧
    (makeCombinedDecision w trad turtle).totalScore =
      (trad.trend + trad.technical + trad.volume) * (1 - w) + turtleScoreOf turtle * w ∧
    ((makeCombinedDecision w trad turtle).action = .BUY ↔
      3/10 < (makeCombinedDecision w trad turtle).totalScore) ∧
    ((makeCombinedDecision w trad turtle).action = .SELL ↔
      (makeCombinedDecision w trad turtle).totalScore < -(3/10)) ∧
    ((makeCombinedDecision w trad turtle).action = .HOLD ↔
      -(3/10) ≤ (makeCombinedDecision w trad turtle).totalScore ∧
      (makeCombinedDecision w trad turtle).totalScore ≤ 3/10) ∧
    ((makeCombinedDecision w trad turtle).action ≠ .HOLD →
      (makeCombinedDecision w trad turtle).confidence =
        min (9/10) (1/2 + |(makeCombinedDecision w trad turtle).totalScore|)) ∧
    ((makeCombinedDecision w trad turtle).action = .HOLD →
      (makeCombinedDecision w trad turtle).confidence = 1/2) ∧
    (makeCombinedDecision (6/10) ⟨1/2, 0, 0⟩ none).totalScore = 2/10 ∧
    (makeCombinedDecision (6/10) ⟨1/2, 0, 0⟩ none).action = .HOLD ∧
    (makeCombinedDecision (6/10) ⟨0, 0, 0⟩ (some ⟨.BUY, 6/10⟩)).totalScore = 36/100 ∧
    (makeCombinedDecision (6/10) ⟨0, 0, 0⟩ (some ⟨.BUY, 6/10⟩)).action = .BUY := by
  refine ⟨mcd_traditionalScore w trad turtle, mcd_turtleScore w trad turtle,
    mcd_totalScore w trad turtle, mcd_action_buy w trad turtle,
    mcd_action_sell w trad turtle, mcd_action_hold w trad turtle,
    (mcd_confidence w trad turtle).1, (mcd_confidence w trad turtle).2,
    ?_, ?_, ?_, ?_⟩ <;> simp [makeCombinedDecision, turtleScoreOf] <;> norm_num

/-- Witness for C8: the second spec example, turtle BUY at confidence 0.6
with zero traditional score, yields total score 0.36 and action BUY. -/
theorem combined_decision_witness :
    (makeCombinedDecision (6/10) ⟨0, 0, 0⟩ (some ⟨.BUY, 6/10⟩)).totalScore = 36/100 ∧
    (makeCombinedDecision (6/10) ⟨0, 0, 0⟩ (some ⟨.BUY, 6/10⟩)).action = .BUY := by
  have h := combined_decision_spec (6/10) ⟨0, 0, 0⟩ (some ⟨.BUY, 6/10⟩)
  obtain ⟨-, -, -, -, -, -, -, -, -, -, h1, h2⟩ := h
  exact ⟨h1, h2⟩

/-! ## Turtle breakout trigger and confidence range (C6) -/

/-- The range [0.1, 0.9] as a finite float value, the range the spec asserts
for the breakout confidence. -/
def confidenceInRange (x : PF) : Prop :=
  ∃ q : ℚ, x = PF.fin q ∧ 1/10 ≤ q ∧ q ≤ 9/10

lemma pymin_fin_fin (a b : ℚ) : PF.pymin (.fin a) (.fin b) = .fin (min a b) := by
  unfold PF.pymin PF.lt
  split_ifs with h
  · simp only [decide_eq_true_eq] at h
    rw [min_eq_right h.le]
  · simp only [decide_eq_true_eq, not_lt] at h
    rw [min_eq_left h]

lemma pymax_fin_fin (a b : ℚ) : PF.pymax (.fin a) (.fin b) = .fin (max a b) := by
  unfold PF.pymax PF.lt
  split_ifs with h
  · simp only [decide_eq_true_eq] at h
    rw [max_eq_right h.le]
  · simp only [decide_eq_true_eq, not_lt] at h
    rw [max_eq_left h]

/-- The final clamp of `_calculate_breakout_strength` maps every non-NaN
breakout percentage into [0.1, 0.9], whatever the finite volume boost is. -/
lemma breakout_clamp_range (x : PF) (c : ℚ) (hx : x ≠ .nan) :
    confidenceInRange
      (PF.pymax (PF.pymin (PF.addQ (PF.pymin (PF.scale 10 x) (.fin (1/2))) c)
        (.fin (9/10))) (.fin (1/10))) := by
  cases x with
  | nan => exact absurd rfl hx
  | inf =>
    have h1 : PF.pymin (PF.scale 10 .inf) (.fin (1/2)) = .fin (1/2) := by
      simp [PF.scale, PF.pymin, PF.lt]
    rw [h1]
    have h2 : PF.addQ (.fin (1/2)) c = .fin (1/2 + c) := rfl
    rw [h2, pymin_fin_fin, pymax_fin_fin]
    exact ⟨_, rfl, le_max_right _ _,
      max_le (le_trans (min_le_right _ _) (by norm_num)) (by norm_num)⟩
  | ninf =>
    have h1 : PF.pymin (PF.scale 10 .ninf) (.fin (1/2)) = .ninf := by
      simp [PF.scale, PF.pymin, PF.lt]
    rw [h1]
    have h2 : PF.addQ .ninf c = .ninf := rfl
    have h3 : PF.pymin PF.ninf (.fin (9/10)) = .ninf := by
      simp [PF.pymin, PF.lt]
    have h4 : PF.pymax PF.ninf (.fin (1/10)) = .fin (1/10) := by
      simp [PF.pymax, PF.lt]
    rw [h2, h3, h4]
    exact ⟨1/10, rfl, le_refl _, by norm_num⟩
  | fin p =>
    have h1 : PF.scale 10 (.fin p) = .fin (10 * p) := rfl
    rw [h1, pymin_fin_fin]
    have h2 : PF.addQ (.fin (min (10 * p) (1/2))) c = .fin (min (10 * p) (1/2) + c) := rfl
    rw [h2, pymin_fin_fin, pymax_fin_fin]
    exact ⟨_, rfl, le_max_right _ _,
      max_le (le_trans (min_le_right _ _) (by norm_num)) (by norm_num)⟩

/-- IEEE division only produces NaN from 0/0. -/
lemma divQ_ne_nan (a b : ℚ) (h : a ≠ 0 ∨ b ≠ 0) : PF.divQ a b ≠ .nan := by
  unfold PF.divQ
  split_ifs with h1 h2 h3 <;> simp_all

/-- C6 amended: on a series of length at least entry_period + 1 whose final
high strictly exceeds the trailing entry-period maximum, `_analyze_system`
reports a BUY entry with `breakout_high` equal to that maximum; and the
confidence returned by `_calculate_breakout_strength` lies in [0.1, 0.9]
whenever the breakout level and the latest close are not both zero (the
excluded case divides 0 by 0 and returns NaN). -/
theorem turtle_breakout_and_confidence :
    (∀ (entryPeriod exitPeriod : ℕ) (bars : List Bar) (hne : bars ≠ []),
      entryPeriod + 1 ≤ bars.length →
      seriesMax (((bars.map Bar.high).drop (bars.length - (entryPeriod + 1))).dropLast) <
        (bars.getLast hne).high →
      (analyzeSystem entryPeriod exitPeriod bars).entrySignal = .BUY ∧
      (analyzeSystem entryPeriod exitPeriod bars).breakoutHigh =
        some (seriesMax
          (((bars.map Bar.high).drop (bars.length - (entryPeriod + 1))).dropLast))) ∧
    (∀ (bars : List Bar) (breakoutLevel : ℚ) (isUpward : Bool),
      breakoutLevel ≠ 0 ∨ (bars.getLast?.map Bar.close).getD 0 ≠ 0 →
      confidenceInRange (calculateBreakoutStrength bars breakoutLevel isUpward)) := by
  constructor
  · intro entryPeriod exitPeriod bars hne hlen hbreak
    have hlast : bars.getLast? = some (bars.getLast hne) := List.getLast?_eq_getLast bars hne
    simp only [analyzeSystem, hlast, Option.map_some', Option.getD_some, gt_iff_lt,
      if_neg (not_lt.mpr hlen)]
    split_ifs <;> exact ⟨rfl, rfl⟩
  · intro bars breakoutLevel isUpward hnz
    cases hl : bars.getLast? with
    | none =>
      simp only [calculateBreakoutStrength, hl]
      exact ⟨1/2, rfl, by norm_num, by norm_num⟩
    | some lastBar =>
      simp only [calculateBreakoutStrength, hl]
      apply breakout_clamp_range
      rw [hl] at hnz
      simp only [Option.map_some', Option.getD_some] at hnz
      by_cases hb : breakoutLevel = 0
      · have hc : lastBar.close ≠ 0 := by
          rcases hnz with h | h
          · exact absurd hb h
          · exact h
        subst hb
        cases isUpward <;>
          simp only [Bool.false_eq_true, if_false, if_true, ite_true, ite_false] <;>
          exact divQ_ne_nan _ _ (Or.inl (by simpa using hc))
      · cases isUpward <;>
          simp only [Bool.false_eq_true, if_false, if_true, ite_true, ite_false] <;>
          exact divQ_ne_nan _ _ (Or.inr hb)

/-- Demonstration series for the turtle witness: two bars with high 5 and 6,
then a final bar whose high 8 breaks the prior two-bar maximum 6. -/
def turtleDemoBars : List Bar :=
  [⟨5, 4, 9/2, 100⟩, ⟨6, 5, 11/2, 100⟩, ⟨8, 6, 7, 300⟩]

/-- Witness for the amended C6 at entry period 2 on `turtleDemoBars`: the
system reports BUY with breakout high 6, and the confidence at level 6 on the
same series is a finite value in [0.1, 0.9]. -/
theorem turtle_breakout_witness :
    (analyzeSystem 2 1 turtleDemoBars).entrySignal = .BUY ∧
    (analyzeSystem 2 1 turtleDemoBars).breakoutHigh = some 6 ∧
    confidenceInRange (calculateBreakoutStrength turtleDemoBars 6 true) := by
  have h1 := turtle_breakout_and_confidence.1 2 1 turtleDemoBars
    (by simp [turtleDemoBars]) (by simp [turtleDemoBars])
    (by norm_num [turtleDemoBars, seriesMax])
  have h2 := turtle_breakout_and_confidence.2 turtleDemoBars 6 true (by norm_num)
  refine ⟨h1.1, ?_, h2⟩
  rw [h1.2]
  norm_num [turtleDemoBars, seriesMax]

/-- Counterexample to C6 as stated: on a single all-zero bar with breakout
level 0 the breakout percentage is 0/0, the Python `min`/`max` chain keeps
the NaN, and the returned confidence is NaN, which does not lie in
[0.1, 0.9]. -/
theorem breakout_strength_nan_counterexample :
    calculateBreakoutStrength [⟨0, 0, 0, 0⟩] 0 true = PF.nan ∧
    ¬ confidenceInRange (calculateBreakoutStrength [⟨0, 0, 0, 0⟩] 0 true) := by
  have h : calculateBreakoutStrength [⟨0, 0, 0, 0⟩] 0 true = PF.nan := by
    simp [calculateBreakoutStrength, PF.divQ, PF.scale, PF.pymin, PF.pymax,
      PF.addQ, PF.lt, seriesMean, seriesTail]
  refine ⟨h, ?_⟩
  rw [h]
  rintro ⟨q, hq, -⟩
  cases hq

/-! ## Signal detector (src/src/analysis/technical_indicators.py,
`get_latest_signals`)

Indicator cells are pandas floats: `none` models NaN (or a missing column,
which the source treats the same way through `pd.isna(row.get(...))`).
Comparisons follow IEEE semantics: any comparison against NaN is false. -/

/-- Strict less-than on float cells; false when either side is NaN. -/
def oLT : Option ℚ → Option ℚ → Bool
  | some a, some b => decide (a < b)
  | _, _ => false

/-- Non-strict less-or-equal on float cells; false when either side is NaN. -/
def oLE : Option ℚ → Option ℚ → Bool
  | some a, some b => decide (a ≤ b)
  | _, _ => false

/-- One augmented row of the indicator DataFrame, restricted to the columns
`get_latest_signals` reads. -/
structure IndicatorRow where
  close : Option ℚ := none
  ma5 : Option ℚ := none
  ma20 : Option ℚ := none
  macd : Option ℚ := none
  macdSignal : Option ℚ := none
  rsi : Option ℚ := none
  kdjK : Option ℚ := none
  kdjD : Option ℚ := none
  bollUpper : Option ℚ := none
  bollLower : Option ℚ := none
  deriving DecidableEq, Repr

/-- The signal dictionary of `get_latest_signals`; an absent key is a false
flag. -/
structure Signals where
  maGoldenCross : Bool := false
  maDeathCross : Bool := false
  macdGoldenCross : Bool := false
  macdDeathCross : Bool := false
  rsiOverbought : Bool := false
  rsiOversold : Bool := false
  kdjGoldenCross : Bool := false
  kdjDeathCross : Bool := false
  bollBreakUpper : Bool := false
  bollBreakLower : Bool := false
  deriving DecidableEq, Repr

/-- The crossover block repeated for MA, MACD and KDJ in
`get_latest_signals` (technical_indicators.py lines 341-345, 348-352,
362-366): the NaN guard checks only the latest row; the previous row enters
only through the IEEE comparisons. -/
def crossSignals (prevFast prevSlow latestFast latestSlow : Option ℚ) :
    Bool × Bool :=
  if !latestFast.isNone && !latestSlow.isNone then
    if oLT latestSlow latestFast && oLE prevFast prevSlow then (true, false)
    else if oLT latestFast latestSlow && oLE prevSlow prevFast then (false, true)
    else (false, false)
  else (false, false)

/-- Embeds `TechnicalIndicators.get_latest_signals`
(technical_indicators.py lines 325-381) on the two most recent rows. -/
def getLatestSignals (prev latest : IndicatorRow) : Signals :=
  let ma := crossSignals prev.ma5 prev.ma20 latest.ma5 latest.ma20
  let macd := crossSignals prev.macd prev.macdSignal latest.macd latest.macdSignal
  let rsiOB := !latest.rsi.isNone && oLT (some 70) latest.rsi
  let rsiOS := !latest.rsi.isNone && !(oLT (some 70) latest.rsi) &&
    oLT latest.rsi (some 30)
  let kdj := crossSignals prev.kdjK prev.kdjD latest.kdjK latest.kdjD
  let bollGuard := !latest.close.isNone && !latest.bollUpper.isNone &&
    !latest.bollLower.isNone
  let bollU := bollGuard && oLT latest.bollUpper latest.close
  let bollL := bollGuard && !(oLT latest.bollUpper latest.close) &&
    oLT latest.close latest.bollLower
  ⟨ma.1, ma.2, macd.1, macd.2, rsiOB, rsiOS, kdj.1, kdj.2, bollU, bollL⟩

lemma oLT_isSome {a b : Option ℚ} (h : oLT a b = true) :
    a.isSome ∧ b.isSome := by
  cases a <;> cases b <;> simp_all [oLT]

lemma oLE_isSome {a b : Option ℚ} (h : oLE a b = true) :
    a.isSome ∧ b.isSome := by
  cases a <;> cases b <;> simp_all [oLE]

lemma crossSignals_golden_isSome {pf ps lf ls : Option ℚ}
    (h : (crossSignals pf ps lf ls).1 = true) :
    lf.isSome ∧ ls.isSome ∧ pf.isSome ∧ ps.isSome := by
  unfold crossSignals at h
  split_ifs at h with h1 h2 h3 <;> simp_all
  obtain ⟨-, hle⟩ := h2
  obtain ⟨hpf, hps⟩ := oLE_isSome hle
  exact ⟨hpf, hps⟩

lemma crossSignals_death_isSome {pf ps lf ls : Option ℚ}
    (h : (crossSignals pf ps lf ls).2 = true) :
    lf.isSome ∧ ls.isSome ∧ pf.isSome ∧ ps.isSome := by
  unfold crossSignals at h
  split_ifs at h with h1 h2 h3 <;> simp_all
  obtain ⟨-, hle⟩ := h3
  obtain ⟨hps, hpf⟩ := oLE_isSome hle
  exact ⟨hpf, hps⟩

/-- C2 amended: the crossover signals (MA, MACD, KDJ golden and death
cross) are active only when every value they read is present on both the
previous and the latest row; the RSI and Bollinger signals read only the
latest row and are active only when those latest values are present — they
place no requirement on the previous row. -/
theorem signals_require_present_inputs (prev latest : IndicatorRow) :
    ((getLatestSignals prev latest).maGoldenCross = true →
      latest.ma5.isSome ∧ latest.ma20.isSome ∧ prev.ma5.isSome ∧ prev.ma20.isSome) ∧
    ((getLatestSignals prev latest).maDeathCross = true →
      latest.ma5.isSome ∧ latest.ma20.isSome ∧ prev.ma5.isSome ∧ prev.ma20.isSome) ∧
    ((getLatestSignals prev latest).macdGoldenCross = true →
      latest.macd.isSome ∧ latest.macdSignal.isSome ∧
        prev.macd.isSome ∧ prev.macdSignal.isSome) ∧
    ((getLatestSignals prev latest).macdDeathCross = true →
      latest.macd.isSome ∧ latest.macdSignal.isSome ∧
        prev.macd.isSome ∧ prev.macdSignal.isSome) ∧
    ((getLatestSignals prev latest).kdjGoldenCross = true →
      latest.kdjK.isSome ∧ latest.kdjD.isSome ∧ prev.kdjK.isSome ∧ prev.kdjD.isSome) ∧
    ((getLatestSignals prev latest).kdjDeathCross = true →
      latest.kdjK.isSome ∧ latest.kdjD.isSome ∧ prev.kdjK.isSome ∧ prev.kdjD.isSome) ∧
    ((getLatestSignals prev latest).rsiOverbought = true → latest.rsi.isSome) ∧
    ((getLatestSignals prev latest).rsiOversold = true → latest.rsi.isSome) ∧
    ((getLatestSignals prev latest).bollBreakUpper = true →
      latest.close.isSome ∧ latest.bollUpper.isSome ∧ latest.bollLower.isSome) ∧
    ((getLatestSignals prev latest).bollBreakLower = true →
      latest.close.isSome ∧ latest.bollUpper.isSome ∧ latest.bollLower.isSome) := by
  refine ⟨fun h => crossSignals_golden_isSome h, fun h => crossSignals_death_isSome h,
    fun h => crossSignals_golden_isSome h, fun h => crossSignals_death_isSome h,
    fun h => crossSignals_golden_isSome h, fun h => crossSignals_death_isSome h,
    fun h => ?_, fun h => ?_, fun h => ?_, fun h => ?_⟩ <;>
    simp only [getLatestSignals, Bool.and_eq_true, Bool.not_eq_true',
      Option.isNone_eq_false_iff] at h
  · exact h.1
  · exact h.1.1
  · exact ⟨h.1.1.1, h.1.1.2, h.1.2⟩
  · exact ⟨h.1.1.1.1, h.1.1.1.2, h.1.1.2⟩

/-- Rows for the C2 witness: a clean MA golden cross with all four MA cells
present on both rows. -/
def maCrossPrevRow : IndicatorRow := { ma5 := some 1, ma20 := some 2 }

/-- Latest row for the C2 witness. -/
def maCrossLatestRow : IndicatorRow := { ma5 := some 3, ma20 := some 2 }

/-- Witness for the amended C2: the MA golden cross fires on
`maCrossPrevRow`/`maCrossLatestRow`, and the theorem then yields presence of
all four read cells. -/
theorem signals_require_present_inputs_witness :
    (getLatestSignals maCrossPrevRow maCrossLatestRow).maGoldenCross = true ∧
    maCrossLatestRow.ma5.isSome ∧ maCrossLatestRow.ma20.isSome ∧
    maCrossPrevRow.ma5.isSome ∧ maCrossPrevRow.ma20.isSome := by
  have hfire : (getLatestSignals maCrossPrevRow maCrossLatestRow).maGoldenCross = true := by
    simp [getLatestSignals, crossSignals, oLT, oLE, maCrossPrevRow, maCrossLatestRow]
    rw [if_pos (by norm_num)]
  exact ⟨hfire, (signals_require_present_inputs maCrossPrevRow maCrossLatestRow).1 hfire⟩

/-- Previous row of the C2 counterexample: its rsi cell is NaN. -/
def rsiNanPrevRow : IndicatorRow := {}

/-- Latest row of the C2 counterexample: rsi 80. -/
def rsiNanLatestRow : IndicatorRow := { rsi := some 80 }

/-- Counterexample to C2 as stated: `rsi_overbought` is declared active even
though the rsi value is NaN on the previous row, because the source checks
`pd.isna` only on the latest row and the RSI branch never reads `prev`. -/
theorem signals_prev_nan_counterexample :
    (getLatestSignals rsiNanPrevRow rsiNanLatestRow).rsiOverbought = true ∧
    rsiNanPrevRow.rsi = none := by
  constructor
  · simp [getLatestSignals, rsiNanLatestRow, oLT]
    norm_num
  · rfl

/-! ## Data-source factory and primary selection
(src/src/data_source/factory.py, src/src/data_source/base.py) -/

/-- One entry of the DATA_SOURCES configuration dict:
`{enabled: bool, priority: int}` keyed by source name. -/
structure AdapterConfig where
  name : String
  enabled : Bool
  priority : ℤ
  deriving DecidableEq, Repr

/-- The six provider names the factory can construct
(factory.py lines 53-68); any other name is skipped with a warning. -/
def knownSourceNames : List String :=
  ["akshare", "tushare", "eastmoney", "sina", "qqstock", "wangyi"]

/-- Stable insertion used to model Python `sorted(..., key=priority)`:
a new entry goes before the first strictly greater priority, hence after all
earlier entries of equal priority, matching Timsort stability. -/
def insertByPriority (c : AdapterConfig) :
    List AdapterConfig → List AdapterConfig
  | [] => [c]
  | d :: rest =>
    if c.priority ≤ d.priority then c :: d :: rest
    else d :: insertByPriority c rest

/-- Stable sort by ascending priority (factory.py line 45). -/
def sortByPriority : List AdapterConfig → List AdapterConfig
  | [] => []
  | c :: rest => insertByPriority c (sortByPriority rest)

/-- The ordered manager contents built by
`DataSourceFactory.create_data_source_manager` (factory.py lines 44-75):
sources are added in ascending configured-priority order, skipping disabled
entries and unknown names.  `DataSourceManager.sources` is an
insertion-ordered dict, so this list order is the iteration order. -/
def buildManagerNames (config : List AdapterConfig) : List String :=
  ((sortByPriority config).filter
    (fun c => c.enabled && knownSourceNames.contains c.name)).map
    AdapterConfig.name

/-- The hardcoded name order used for primary selection in
`get_data_source_manager` (factory.py line 187). -/
def primaryPriorityOrder : List String :=
  ["eastmoney", "tushare", "akshare", "sina", "qqstock", "wangyi"]

/-- Embeds the primary-source selection of `get_data_source_manager`
(factory.py lines 183-203) together with the `add_source` default
(base.py lines 106-110): `conn` is the result of each adapter `connect()`
probe, which the adapters store in `is_connected`.  When at least one
adapter is connected the code walks the hardcoded `priority_order` list;
when none is connected `primary_source` keeps the value `add_source` gave
it, the first added source (or none when the manager is empty). -/
def selectPrimary (config : List AdapterConfig) (conn : String → Bool) :
    Option String :=
  let names := buildManagerNames config
  let connectedNames := names.filter conn
  if connectedNames.isEmpty then names.head?
  else
    match primaryPriorityOrder.find? (fun n => connectedNames.contains n) with
    | some p => some p
    | none => connectedNames.head?

/-- Modelled from the spec (claim side of C3, for the refutation): the first
adapter in ascending configured-priority order whose connected flag is true;
when none is connected, the first configured adapter. -/
def claimedSelectPrimary (config : List AdapterConfig) (conn : String → Bool) :
    Option String :=
  match (buildManagerNames config).find? conn with
  | some n => some n
  | none => (buildManagerNames config).head?

/-! ## History fetch with failover (src/src/analysis/engine.py,
`AnalysisEngine._get_stock_data` with `force_update=True`, which bypasses
the database cache; the trailing save to the database is a logged side
effect without influence on the returned frame) -/

/-- The two windows the engine requests: the full `days` window and the
30-day retry window. -/
inductive Window where
  | full
  | short
  deriving DecidableEq, Repr

/-- One adapter as `_get_stock_data` sees it: its registered name, its
`is_connected` flag, and the outcome of `get_price_data` for each window —
`error` models a raised exception, `ok []` an empty DataFrame. -/
structure Source where
  name : String
  connected : Bool
  fetchFull : Except Unit (List ℚ)
  fetchShort : Except Unit (List ℚ)

/-- The `get_price_data` call for a given window. -/
def Source.fetch (s : Source) : Window → Except Unit (List ℚ)
  | .full => s.fetchFull
  | .short => s.fetchShort

/-- Embeds `DataSourceManager.get_available_sources` (base.py lines
146-148): the names of connected sources in manager (insertion) order. -/
def getAvailableSources (mgr : List Source) : List String :=
  (mgr.filter (·.connected)).map Source.name

/-- Embeds `DataSourceManager.get_source_by_name` (base.py lines 129-133). -/
def getSourceByName (mgr : List Source) (n : String) : Option Source :=
  mgr.find? (fun s => s.name == n)

/-- The mutable state of the fetch loops: the current frame `df` and, as
embedding instrumentation, the `(source, window)` pairs whose
`get_price_data` was actually invoked. -/
structure FetchState where
  df : List ℚ
  consulted : List (String × Window)
  deriving DecidableEq, Repr

/-- One pass of the per-source loop in `_get_stock_data` (engine.py lines
176-191 for the full window, 198-207 for the 30-day retry): skip names that
do not resolve to a connected source, record a fetch attempt, keep the old
(empty) frame on an exception, and break on the first non-empty frame. -/
def fetchPass (mgr : List Source) (w : Window) :
    List String → FetchState → FetchState
  | [], st => st
  | n :: rest, st =>
    match getSourceByName mgr n with
    | none => fetchPass mgr w rest st
    | some s =>
      if s.connected then
        match s.fetch w with
        | .error _ =>
          fetchPass mgr w rest { st with consulted := st.consulted ++ [(n, w)] }
        | .ok d =>
          if d.isEmpty then
            fetchPass mgr w rest { df := d, consulted := st.consulted ++ [(n, w)] }
          else
            { df := d, consulted := st.consulted ++ [(n, w)] }
      else fetchPass mgr w rest st

/-- Embeds `AnalysisEngine._get_stock_data` (engine.py lines 161-217) with
the database cache bypassed: a full-window pass over the available sources,
then, when that yields nothing and the request exceeds 30 days, a 30-day
pass over the same names. -/
def getStockData (mgr : List Source) (days : ℕ) : FetchState :=
  let names := getAvailableSources mgr
  let st1 := fetchPass mgr .full names ⟨[], []⟩
  if st1.df.isEmpty ∧ 30 < days then fetchPass mgr .short names st1
  else st1

/-! ## Theorems for primary selection (C3) -/

lemma mem_known_mem_order {s : String} (h : s ∈ knownSourceNames) :
    s ∈ primaryPriorityOrder := by
  simp only [knownSourceNames, List.mem_cons, List.not_mem_nil, or_false] at h
  simp only [primaryPriorityOrder, List.mem_cons, List.not_mem_nil, or_false]
  tauto

lemma buildManagerNames_mem_known {config : List AdapterConfig} {n : String}
    (h : n ∈ buildManagerNames config) : n ∈ knownSourceNames := by
  unfold buildManagerNames at h
  obtain ⟨c, hc, rfl⟩ := List.mem_map.mp h
  have hf := List.of_mem_filter hc
  simp only [Bool.and_eq_true] at hf
  exact List.elem_iff.mp hf.2

/-- C3 amended: when at least one adapter is connected, the primary is the
first name of the fixed built-in order (eastmoney, tushare, akshare, sina,
qqstock, wangyi) that is connected — not the first in ascending configured
priority, with which it coincides only under the default priorities; when
no adapter is connected, the primary stays the first adapter in ascending
configured-priority order (the first one added). -/
theorem select_primary_hardcoded_order (config : List AdapterConfig)
    (conn : String → Bool) :
    ((buildManagerNames config).filter conn ≠ [] →
      ∃ p, primaryPriorityOrder.find?
          (fun n => ((buildManagerNames config).filter conn).contains n) = some p ∧
        selectPrimary config conn = some p) ∧
    ((buildManagerNames config).filter conn = [] →
      selectPrimary config conn = (buildManagerNames config).head?) := by
  constructor
  · intro hne
    obtain ⟨n₀, hn₀⟩ := List.exists_mem_of_ne_nil _ hne
    have hn₀m : n₀ ∈ buildManagerNames config := List.mem_of_mem_filter hn₀
    have hordr : n₀ ∈ primaryPriorityOrder :=
      mem_known_mem_order (buildManagerNames_mem_known hn₀m)
    have hfind : (primaryPriorityOrder.find?
        (fun n => ((buildManagerNames config).filter conn).contains n)).isSome := by
      rw [List.find?_isSome]
      exact ⟨n₀, hordr, List.elem_iff.mpr hn₀⟩
    obtain ⟨p, hp⟩ := Option.isSome_iff_exists.mp hfind
    refine ⟨p, hp, ?_⟩
    simp only [selectPrimary]
    rw [if_neg (by simpa using hne), hp]
  · intro hemp
    simp only [selectPrimary]
    rw [if_pos (by simpa using hemp)]

/-- Configuration for the C3 refutation: sina is given priority 1 and
eastmoney priority 2, both enabled, both connecting successfully. -/
def c3DemoConfig : List AdapterConfig :=
  [⟨"sina", true, 1⟩, ⟨"eastmoney", true, 2⟩]

/-- Counterexample to C3 as stated: with sina configured ahead of eastmoney
and both connected, the configured-priority rule would pick sina, but the
code walks its hardcoded name list and picks eastmoney. -/
theorem select_primary_counterexample :
    selectPrimary c3DemoConfig (fun _ => true) = some "eastmoney" ∧
    claimedSelectPrimary c3DemoConfig (fun _ => true) = some "sina" ∧
    selectPrimary c3DemoConfig (fun _ => true) ≠
      claimedSelectPrimary c3DemoConfig (fun _ => true) := by
  refine ⟨?_, ?_, ?_⟩ <;> decide

/-- Connectivity for the C3 witness: only sina connects. -/
def c3WitnessConn : String → Bool := fun n => n == "sina"

/-- Witness for the amended C3: with only sina connected the hardcoded walk
reaches sina, so the primary is sina. -/
theorem select_primary_hardcoded_witness :
    (buildManagerNames c3DemoConfig).filter c3WitnessConn ≠ [] ∧
    selectPrimary c3DemoConfig c3WitnessConn = some "sina" := by
  have h := (select_primary_hardcoded_order c3DemoConfig c3WitnessConn).1 (by decide)
  obtain ⟨p, hfind, hsel⟩ := h
  have hval : primaryPriorityOrder.find?
      (fun n => ((buildManagerNames c3DemoConfig).filter c3WitnessConn).contains n) =
      some "sina" := by decide
  have hp : p = "sina" := (Option.some.inj (hval.symm.trans hfind)).symm
  exact ⟨by decide, hp ▸ hsel⟩

/-! ## Theorems for the failover fetch (C1, C4) -/

lemma getSourceByName_append_middle {pre : List Source} (post : List Source)
    {a : Source} (hdisj : ∀ b ∈ pre, b.name ≠ a.name) :
    getSourceByName (pre ++ a :: post) a.name = some a := by
  unfold getSourceByName
  rw [List.find?_append]
  have h1 : pre.find? (fun s => s.name == a.name) = none := by
    rw [List.find?_eq_none]
    intro b hb
    simpa using hdisj b hb
  rw [h1, Option.none_or, List.find?_cons_of_pos _ (by simp)]

/-- C1: with the database cache bypassed, when every source ahead of `a` in
manager order (ascending configured priority, as the factory inserts them)
is disconnected, `a` is connected, and the full-window fetch of `a` yields a
non-empty frame, `_get_stock_data` returns exactly that frame and the only
`get_price_data` call made is the full-window call to `a` — no
lower-priority source is consulted. -/
theorem failover_first_nonempty_wins (pre post : List Source) (a : Source)
    (bars : List ℚ) (days : ℕ)
    (hnodup : ((pre ++ a :: post).map Source.name).Nodup)
    (hpre : ∀ b ∈ pre, b.connected = false)
    (hconn : a.connected = true)
    (hfetch : a.fetchFull = .ok bars)
    (hne : bars ≠ []) :
    getStockData (pre ++ a :: post) days = ⟨bars, [(a.name, .full)]⟩ := by
  have hdisj : ∀ b ∈ pre, b.name ≠ a.name := by
    intro b hb heq
    rw [List.map_append] at hnodup
    obtain ⟨-, -, hdis⟩ := List.nodup_append.mp hnodup
    exact hdis (List.mem_map_of_mem _ hb) (by simp [heq])
  have havail : getAvailableSources (pre ++ a :: post) =
      a.name :: getAvailableSources post := by
    unfold getAvailableSources
    rw [List.filter_append,
      List.filter_eq_nil_iff.mpr (fun b hb => by simp [hpre b hb]),
      List.filter_cons_of_pos (by simp [hconn])]
    simp
  have hlook := getSourceByName_append_middle post hdisj
  have hstep : fetchPass (pre ++ a :: post) .full
      (a.name :: getAvailableSources post) ⟨[], []⟩ =
      ⟨bars, [(a.name, .full)]⟩ := by
    simp only [fetchPass, hlook, hconn, if_true, Source.fetch, hfetch,
      if_neg (show ¬(bars.isEmpty = true) from by simpa [List.isEmpty_iff] using hne)]
    simp
  simp only [getStockData, havail, hstep]
  rw [if_neg (by simp [hne])]

/-- Sources for the C1 and C4 witnesses. -/
def failDemoSources : List Source :=
  [⟨"sina", false, .ok [], .ok []⟩, ⟨"eastmoney", true, .ok [5, 6], .ok []⟩,
    ⟨"tushare", true, .ok [7], .ok [7]⟩]

/-- Witness for C1: sina is disconnected, eastmoney is connected with a
non-empty full-window frame, so the fetch returns that frame after a single
call and never consults tushare. -/
theorem failover_first_nonempty_witness :
    getStockData failDemoSources 100 = ⟨[5, 6], [("eastmoney", Window.full)]⟩ := by
  have h := failover_first_nonempty_wins
    [⟨"sina", false, .ok [], .ok []⟩]
    [⟨"tushare", true, .ok [7], .ok [7]⟩]
    ⟨"eastmoney", true, .ok [5, 6], .ok []⟩ [5, 6] 100
    (by decide)
    (by intro b hb; rcases List.mem_singleton.mp hb with rfl; rfl)
    rfl rfl (by simp)
  exact h

lemma available_lookup (mgr : List Source) :
    (mgr.map Source.name).Nodup →
    ∀ n ∈ getAvailableSources mgr,
      ∃ s, getSourceByName mgr n = some s ∧ s ∈ mgr ∧ s.connected = true := by
  induction mgr with
  | nil =>
    intro _ n hn
    simp [getAvailableSources] at hn
  | cons t rest ih =>
    intro hnodup n hn
    rw [List.map_cons, List.nodup_cons] at hnodup
    obtain ⟨htn, hrest⟩ := hnodup
    have hstep : ∀ hn2 : n ∈ getAvailableSources rest,
        ∃ s, getSourceByName (t :: rest) n = some s ∧ s ∈ t :: rest ∧
          s.connected = true := by
      intro hn2
      obtain ⟨s, hfind, hsmem, hsconn⟩ := ih hrest n hn2
      have hsname : s.name = n := by simpa using List.find?_some hfind
      have htnn : t.name ≠ n := by
        intro he
        exact htn (he ▸ hsname ▸ List.mem_map_of_mem Source.name hsmem)
      refine ⟨s, ?_, List.mem_cons_of_mem _ hsmem, hsconn⟩
      rw [getSourceByName, List.find?_cons_of_neg _ (by simpa using htnn)]
      exact hfind
    by_cases hc : t.connected = true
    · rw [getAvailableSources, List.filter_cons_of_pos (by simp [hc]),
        List.map_cons] at hn
      rcases List.mem_cons.mp hn with rfl | hn2
      · exact ⟨t, by rw [getSourceByName, List.find?_cons_of_pos _ (by simp)],
          List.mem_cons_self t rest, hc⟩
      · exact hstep hn2
    · rw [getAvailableSources, List.filter_cons_of_neg (by simp [hc])] at hn
      exact hstep hn

lemma fetchPass_all_empty (mgr : List Source) (w : Window)
    (hW : ∀ s ∈ mgr, s.connected = true →
      s.fetch w = .ok [] ∨ s.fetch w = .error ()) :
    ∀ names : List String,
      (∀ n ∈ names,
        ∃ s, getSourceByName mgr n = some s ∧ s ∈ mgr ∧ s.connected = true) →
      ∀ st : FetchState, st.df = [] →
      fetchPass mgr w names st =
        ⟨[], st.consulted ++ names.map (fun n => (n, w))⟩ := by
  intro names
  induction names with
  | nil =>
    intro _ st hdf
    obtain ⟨df, consulted⟩ := st
    simp only [fetchPass, List.map_nil, List.append_nil]
    simp_all
  | cons n rest ih =>
    intro hmem st hdf
    obtain ⟨s, hfind, hsmem, hsconn⟩ := hmem n (List.mem_cons_self n rest)
    have hrest : ∀ m ∈ rest,
        ∃ s, getSourceByName mgr m = some s ∧ s ∈ mgr ∧ s.connected = true :=
      fun m hm => hmem m (List.mem_cons_of_mem _ hm)
    rcases hW s hsmem hsconn with hok | herr
    · simp only [fetchPass, hfind, hsconn, if_true, hok, List.isEmpty_nil, if_pos]
      rw [ih hrest _ rfl]
      simp
    · simp only [fetchPass, hfind, hsconn, if_true, herr]
      rw [ih hrest { st with consulted := st.consulted ++ [(n, w)] } hdf]
      simp

/-- C4: when the requested window exceeds 30 days and every connected source
yields an empty frame or raises for the full window, the fetch retries every
available source in the same order with the 30-day window, and when that
also yields nothing everywhere it returns an empty frame instead of
raising. -/
theorem failover_short_retry_returns_empty (mgr : List Source) (days : ℕ)
    (hnodup : (mgr.map Source.name).Nodup)
    (hfull : ∀ s ∈ mgr, s.connected = true →
      s.fetchFull = .ok [] ∨ s.fetchFull = .error ())
    (hshort : ∀ s ∈ mgr, s.connected = true →
      s.fetchShort = .ok [] ∨ s.fetchShort = .error ())
    (hdays : 30 < days) :
    getStockData mgr days =
      ⟨[], (getAvailableSources mgr).map (fun n => (n, Window.full)) ++
        (getAvailableSources mgr).map (fun n => (n, Window.short))⟩ := by
  have hmem := available_lookup mgr hnodup
  have h1 := fetchPass_all_empty mgr .full
    (fun s hs hc => by simpa [Source.fetch] using hfull s hs hc)
    (getAvailableSources mgr) hmem ⟨[], []⟩ rfl
  have h2 := fetchPass_all_empty mgr .short
    (fun s hs hc => by simpa [Source.fetch] using hshort s hs hc)
    (getAvailableSources mgr)
    hmem ⟨[], (getAvailableSources mgr).map (fun n => (n, Window.full))⟩ rfl
  simp only [getStockData, h1]
  rw [if_pos ⟨by simp, hdays⟩]
  simpa using h2

/-- Sources for the C4 witness: one connected source with an empty frame in
both windows, one disconnected source, one connected source that raises on
the full window and is empty on the short window. -/
def retryDemoSources : List Source :=
  [⟨"eastmoney", true, .ok [], .ok []⟩, ⟨"tushare", false, .ok [9], .ok [9]⟩,
    ⟨"akshare", true, .error (), .ok []⟩]

/-- Witness for C4 at a 40-day request on `retryDemoSources`: both connected
sources are consulted for the full window, then both again for the 30-day
window, and the result is the empty frame. -/
theorem failover_short_retry_witness :
    getStockData retryDemoSources 40 =
      ⟨[], [("eastmoney", Window.full), ("akshare", Window.full),
        ("eastmoney", Window.short), ("akshare", Window.short)]⟩ := by
  have h := failover_short_retry_returns_empty retryDemoSources 40
    (by decide)
    (by
      intro s hs hc
      simp only [retryDemoSources, List.mem_cons, List.not_mem_nil, or_false] at hs
      rcases hs with rfl | rfl | rfl <;> simp_all)
    (by
      intro s hs hc
      simp only [retryDemoSources, List.mem_cons, List.not_mem_nil, or_false] at hs
      rcases hs with rfl | rfl | rfl <;> simp_all)
    (by norm_num)
  rw [h]
  rfl

/-! ## KDJ (src/src/analysis/technical_indicators.py, `calculate_kdj`)

Raw prices are rationals; an rsv cell is `none` when its rolling window is
incomplete or degenerate.  For bar data with `low ≤ close ≤ high` a zero
window range forces a zero numerator, so the degenerate cell is pandas
0/0 = NaN; inputs outside that invariant are excluded by the hypotheses of
the theorem below, keeping the embedding faithful to IEEE division. -/

/-- Pandas `rolling(window).min()`: NaN until the window is complete, then
the minimum of the trailing `w` values. -/
def rollingMin (w : ℕ) (xs : List ℚ) : List (Option ℚ) :=
  (List.range xs.length).map (fun i =>
    if i + 1 < w then none
    else some (seriesMin ((xs.take (i + 1)).drop (i + 1 - w))))

/-- Pandas `rolling(window).max()`. -/
def rollingMax (w : ℕ) (xs : List ℚ) : List (Option ℚ) :=
  (List.range xs.length).map (fun i =>
    if i + 1 < w then none
    else some (seriesMax ((xs.take (i + 1)).drop (i + 1 - w))))

/-- The rsv series of `calculate_kdj` (technical_indicators.py lines
128-132): `(close − rolling_min(low, k)) / (rolling_max(high, k) −
rolling_min(low, k)) × 100`, with NaN while a window is incomplete and NaN
from the 0/0 of a zero range. -/
def rsvList (high low close : List ℚ) (kPeriod : ℕ) : List (Option ℚ) :=
  List.zipWith
    (fun c lh => match lh with
      | (some l, some h) =>
        if h - l = 0 then none else some ((c - l) / (h - l) * 100)
      | _ => none)
    close ((rollingMin kPeriod low).zip (rollingMax kPeriod high))

/-- The smoothing loop of `calculate_kdj` (lines 135-144 for K over rsv and
lines 149-158 for D over K): a NaN input appends NaN and leaves the carried
value untouched; a valid input v appends `2/3·prev + 1/3·v` and advances the
carry, starting from the seed 50. -/
def kdjSmooth (prev : ℚ) : List (Option ℚ) → List (Option ℚ)
  | [] => []
  | none :: rest => none :: kdjSmooth prev rest
  | some v :: rest =>
    (some (2/3 * prev + 1/3 * v)) :: kdjSmooth (2/3 * prev + 1/3 * v) rest

/-- The three series returned by `calculate_kdj`. -/
structure KdjResult where
  kdjK : List (Option ℚ)
  kdjD : List (Option ℚ)
  kdjJ : List (Option ℚ)
  deriving DecidableEq, Repr

/-- Embeds `TechnicalIndicators.calculate_kdj` (technical_indicators.py
lines 112-169): all-NaN series when the input is shorter than `k_period`,
otherwise the recursive K and D smoothers over rsv and `J = 3K − 2J`
computed elementwise with NaN propagation. -/
def calculateKdj (high low close : List ℚ) (kPeriod : ℕ) : KdjResult :=
  if close.length < kPeriod then
    ⟨List.replicate close.length none, List.replicate close.length none,
      List.replicate close.length none⟩
  else
    let rsv := rsvList high low close kPeriod
    let kSeries := kdjSmooth 50 rsv
    let dSeries := kdjSmooth 50 kSeries
    let jSeries := List.zipWith
      (fun kc dc => match kc, dc with
        | some kv, some dv => some (3 * kv - 2 * dv)
        | _, _ => none) kSeries dSeries
    ⟨kSeries, dSeries, jSeries⟩

/-- The value the smoothing loop carries after a list of produced cells: the
last valid cell, or the seed when none has been produced yet.  This is the
spec-side description of seeding at the first valid rsv row and carrying
across NaN rows. -/
def lastCarry (seed : ℚ) (ys : List (Option ℚ)) : ℚ :=
  ((ys.filterMap id).getLast?).getD seed

lemma lastCarry_cons_none (seed : ℚ) (ys : List (Option ℚ)) :
    lastCarry seed (none :: ys) = lastCarry seed ys := by
  unfold lastCarry
  rw [show (none :: ys).filterMap id = ys.filterMap id from by simp]

lemma lastCarry_cons_some (seed c : ℚ) (ys : List (Option ℚ)) :
    lastCarry seed (some c :: ys) = lastCarry c ys := by
  unfold lastCarry
  rw [show (some c :: ys).filterMap id = c :: ys.filterMap id from by simp]
  cases hz : ys.filterMap id with
  | nil => simp
  | cons z zs =>
    rw [List.getLast?_cons_cons]
    cases hw : (z :: zs).getLast? with
    | none => simp [List.getLast?_eq_none_iff] at hw
    | some w => simp

lemma kdjSmooth_length (seed : ℚ) (xs : List (Option ℚ)) :
    (kdjSmooth seed xs).length = xs.length := by
  induction xs generalizing seed with
  | nil => rfl
  | cons x rest ih => cases x <;> simp [kdjSmooth, ih]

/-- The smoothing loop satisfies the claimed recursion pointwise: each output
cell is NaN exactly where the input is, and a valid cell at position i is
`2/3 · carry + 1/3 · input`, where the carry is the last valid output before
i, or the seed when there is none. -/
lemma kdjSmooth_get (xs : List (Option ℚ)) (seed : ℚ) (i : ℕ) :
    (kdjSmooth seed xs)[i]? =
      (xs[i]?).map (Option.map
        (fun v => 2/3 * lastCarry seed ((kdjSmooth seed xs).take i) + 1/3 * v)) := by
  induction xs generalizing seed i with
  | nil => simp [kdjSmooth]
  | cons x rest ih =>
    cases x with
    | none =>
      rw [show kdjSmooth seed (none :: rest) = none :: kdjSmooth seed rest from rfl]
      cases i with
      | zero => simp
      | succ j =>
        simp only [List.getElem?_cons_succ, List.take_succ_cons, lastCarry_cons_none]
        exact ih seed j
    | some v =>
      rw [show kdjSmooth seed (some v :: rest) =
        some (2/3 * seed + 1/3 * v) :: kdjSmooth (2/3 * seed + 1/3 * v) rest from rfl]
      cases i with
      | zero => simp [lastCarry]
      | succ j =>
        simp only [List.getElem?_cons_succ, List.take_succ_cons, lastCarry_cons_some]
        exact ih _ j

lemma rollingMin_length (w : ℕ) (xs : List ℚ) :
    (rollingMin w xs).length = xs.length := by simp [rollingMin]

lemma rollingMax_length (w : ℕ) (xs : List ℚ) :
    (rollingMax w xs).length = xs.length := by simp [rollingMax]

lemma rsvList_length (high low close : List ℚ) (k : ℕ)
    (hlh : high.length = close.length) (hll : low.length = close.length) :
    (rsvList high low close k).length = close.length := by
  unfold rsvList
  rw [List.length_zipWith, List.length_zip, rollingMin_length, rollingMax_length,
    hlh, hll]
  simp

/-- C5: on a well-formed bar series at least k_period long, `calculate_kdj`
computes K by the recursion `K = 2/3·carry + 1/3·rsv` seeded with 50 at the
first valid rsv row and carrying the last valid K across NaN rsv rows
(rows with NaN rsv get NaN K), computes D the same way over K, satisfies
`J = 3K − 2D` exactly at every valid row with NaN rows staying NaN, and is
deterministic. -/
theorem calculate_kdj_spec (high low close : List ℚ) (k : ℕ)
    (hlh : high.length = close.length) (hll : low.length = close.length)
    (hwf : ∀ i, i < close.length →
      low.getD i 0 ≤ close.getD i 0 ∧ close.getD i 0 ≤ high.getD i 0)
    (hlen : k ≤ close.length) :
    ((calculateKdj high low close k).kdjK.length = close.length ∧
      (calculateKdj high low close k).kdjD.length = close.length ∧
      (calculateKdj high low close k).kdjJ.length = close.length) ∧
    (∀ i : ℕ, (calculateKdj high low close k).kdjK[i]? =
      ((rsvList high low close k)[i]?).map (Option.map (fun v =>
        2/3 * lastCarry 50 ((calculateKdj high low close k).kdjK.take i) +
          1/3 * v))) ∧
    (∀ i : ℕ, (calculateKdj high low close k).kdjD[i]? =
      ((calculateKdj high low close k).kdjK[i]?).map (Option.map (fun v =>
        2/3 * lastCarry 50 ((calculateKdj high low close k).kdjD.take i) +
          1/3 * v))) ∧
    (∀ (i : ℕ) (kv dv : ℚ),
      (calculateKdj high low close k).kdjK[i]? = some (some kv) →
      (calculateKdj high low close k).kdjD[i]? = some (some dv) →
      (calculateKdj high low close k).kdjJ[i]? = some (some (3 * kv - 2 * dv))) ∧
    (∀ i : ℕ, (calculateKdj high low close k).kdjK[i]? = some none →
      (calculateKdj high low close k).kdjJ[i]? = some none) ∧
    calculateKdj high low close k = calculateKdj high low close k := by
  have hnl : ¬ (close.length < k) := not_lt.mpr hlen
  simp only [calculateKdj, if_neg hnl]
  have hKlen : (kdjSmooth 50 (rsvList high low close k)).length = close.length := by
    rw [kdjSmooth_length, rsvList_length high low close k hlh hll]
  have hDlen : (kdjSmooth 50 (kdjSmooth 50 (rsvList high low close k))).length =
      close.length := by rw [kdjSmooth_length, hKlen]
  refine ⟨⟨hKlen, hDlen, ?_⟩, fun i => kdjSmooth_get _ 50 i,
    fun i => kdjSmooth_get _ 50 i, ?_, ?_, trivial⟩
  · rw [List.length_zipWith, hKlen, hDlen, min_self]
  · intro i kv dv hk hd
    rw [List.getElem?_zipWith', hk, hd]
    rfl
  · intro i hk
    obtain ⟨hilt, -⟩ := List.getElem?_eq_some_iff.mp hk
    have hiD : i < (kdjSmooth 50 (kdjSmooth 50 (rsvList high low close k))).length := by
      rw [hDlen, ← hKlen]
      exact hilt
    obtain ⟨dv, hdv⟩ : ∃ dv,
        (kdjSmooth 50 (kdjSmooth 50 (rsvList high low close k)))[i]? = some dv :=
      ⟨_, List.getElem?_eq_getElem hiD⟩
    rw [List.getElem?_zipWith', hk, hdv]
    cases dv <;> rfl

/-- Demonstration bars for the C5 witness: three well-formed bars. -/
def kdjDemoHigh : List ℚ := [10, 12, 11]

/-- Low column of the C5 demonstration series. -/
def kdjDemoLow : List ℚ := [8, 9, 9]

/-- Close column of the C5 demonstration series. -/
def kdjDemoClose : List ℚ := [9, 11, 10]

/-- Witness for C5 on the three-bar series with k_period 2: the K recursion
holds at every index and the computation is deterministic. -/
theorem calculate_kdj_witness :
    (∀ i : ℕ, (calculateKdj kdjDemoHigh kdjDemoLow kdjDemoClose 2).kdjK[i]? =
      ((rsvList kdjDemoHigh kdjDemoLow kdjDemoClose 2)[i]?).map (Option.map (fun v =>
        2/3 * lastCarry 50
          ((calculateKdj kdjDemoHigh kdjDemoLow kdjDemoClose 2).kdjK.take i) +
          1/3 * v))) ∧
    calculateKdj kdjDemoHigh kdjDemoLow kdjDemoClose 2 =
      calculateKdj kdjDemoHigh kdjDemoLow kdjDemoClose 2 := by
  have h := calculate_kdj_spec kdjDemoHigh kdjDemoLow kdjDemoClose 2 rfl rfl
    (by decide) (by decide)
  exact ⟨h.2.1, h.2.2.2.2.2⟩

end StockAnalysis
